import Mathlib

/- Shallow embedding of the polymarket-analytics data-collection and
aggregation pipeline: the offset-pagination loops of
src/polymarket_api.py and the reconciliation / summary logic of
src/polymarket_portfolioAnalyzer.py.  Record payloads are kept abstract
(a type parameter) where the loops never inspect them; money amounts are
modelled as exact rationals and timestamps as integers / naturals. -/

namespace PolymarketAnalytics

/-! ## Pagination loops, pure view

The endpoint is modelled as holding a fixed list `data` of records in
server order; a page request at `offset` with page size `limit` is served
as `(data.drop offset).take limit`.  This is the "mock endpoint with known
data" of the spec; every request succeeds. -/

/-- Python truthiness guard of get_all_user_trades (line 598 of
src/polymarket_api.py): `if max_results and len(all_trades) >= max_results`.
A `max_results` of 0 is falsy in Python, hence the `m ≠ 0` conjunct. -/
def maxReached (maxResults : Option Nat) (count : Nat) : Bool :=
  match maxResults with
  | none => false
  | some m => decide (m ≠ 0) && decide (m ≤ count)

/-- While-loop of PolymarketAPI.get_all_user_trades
(src/polymarket_api.py lines 576-614) against an endpoint holding `data`.
Page size is the source's hard-coded `limit = 500`.  Checks happen in
source order: short page (line 594), max_results truncation (line 598),
offset cap 10000 (line 604).  The second component counts the number of
page requests issued (one per loop iteration). -/
def getAllUserTradesLoop (data : List α) (maxResults : Option Nat)
    (offset : Nat) (acc : List α) : List α × Nat :=
  let batch := (data.drop offset).take 500
  let accNext := acc ++ batch
  if batch.length < 500 then
    (accNext, 1)
  else if maxReached maxResults accNext.length then
    (accNext.take (maxResults.getD 0), 1)
  else if 10000 ≤ offset + 500 then
    (accNext, 1)
  else
    let rest := getAllUserTradesLoop data maxResults (offset + 500) accNext
    (rest.1, rest.2 + 1)
termination_by 10000 - offset
decreasing_by omega

/-- PolymarketAPI.get_all_user_trades: records returned. -/
def getAllUserTrades (data : List α) (maxResults : Option Nat) : List α :=
  (getAllUserTradesLoop data maxResults 0 []).1

/-- PolymarketAPI.get_all_user_trades: number of page requests issued. -/
def getAllUserTradesRequests (data : List α) (maxResults : Option Nat) : Nat :=
  (getAllUserTradesLoop data maxResults 0 []).2

/-- While-loop of PolymarketAPI.get_all_user_positions
(src/polymarket_api.py lines 296-332) against an endpoint holding `data`,
in the error-free case (the 429 handler never fires).  Page size is the
hard-coded `limit = 500`; the loop breaks on an empty batch (line 309)
or a short batch (line 318) and has no offset cap. -/
def getAllUserPositionsLoop (data : List α) (offset : Nat) (acc : List α) :
    List α :=
  let batch := (data.drop offset).take 500
  if h0 : batch.length = 0 then acc
  else
    let accNext := acc ++ batch
    if h1 : batch.length < 500 then accNext
    else getAllUserPositionsLoop data (offset + 500) accNext
termination_by data.length - offset
decreasing_by
  simp only [batch, List.length_take, List.length_drop] at h0 h1
  omega

/-- PolymarketAPI.get_all_user_positions on a mock endpoint holding `data`. -/
def getAllUserPositions (data : List α) : List α :=
  getAllUserPositionsLoop data 0 []

/-- While-loop of PolymarketAPI.get_all_closed_positions
(src/polymarket_api.py lines 399-474) against an endpoint holding `data`,
with no date window (so `use_early_stopping` is false and the
early-stopping block lines 430-443 is inert) and in the error-free case.
Page size is the hard-coded `limit = 25`; the loop breaks on an empty
batch (line 424) or a short batch (line 448) and has no offset cap. -/
def getAllClosedPositionsLoop (data : List α) (offset : Nat) (acc : List α) :
    List α :=
  let batch := (data.drop offset).take 25
  if h0 : batch.length = 0 then acc
  else
    let accNext := acc ++ batch
    if h1 : batch.length < 25 then accNext
    else getAllClosedPositionsLoop data (offset + 25) accNext
termination_by data.length - offset
decreasing_by
  simp only [batch, List.length_take, List.length_drop] at h0 h1
  omega

/-- PolymarketAPI.get_all_closed_positions (no date window) on a mock
endpoint holding `data`. -/
def getAllClosedPositions (data : List α) : List α :=
  getAllClosedPositionsLoop data 0 []

/-! ## Pagination loops, scripted-response view

For the rate-limit / error-handling behaviour the endpoint is modelled as
a script: a list of HTTP responses consumed one per request, so arbitrary
interleavings of 429s, other error codes and data pages can be expressed.
Each loop returns the list of offsets requested (in request order)
together with `some (.ok records)` on normal return, `some (.error code)`
when an HTTP error propagates out of the loop, or `none` when the script
ran out of responses (the behaviour is then outside the model). -/

/-- Outcome of one HTTP page request: a JSON batch, or an HTTP error code
raised by response.raise_for_status(). -/
inductive HttpResp (α : Type u) where
  | ok (batch : List α)
  | err (code : Nat)
deriving DecidableEq

/-- While-loop of PolymarketAPI.get_all_closed_positions (no date window)
with scripted responses.  The except-clause at lines 454-460 handles
HTTPError: a 429 sleeps 5 seconds and `continue`s with the same offset,
consuming no retry budget; any other status re-raises. -/
def getAllClosedPositionsResp :
    List (HttpResp α) → Nat → List α → List Nat × Option (Except Nat (List α))
  | [], offset, _ => ([offset], none)
  | .err code :: rest, offset, acc =>
    if code = 429 then
      let r := getAllClosedPositionsResp rest offset acc
      (offset :: r.1, r.2)
    else ([offset], some (.error code))
  | .ok batch :: rest, offset, acc =>
    if batch.length = 0 then ([offset], some (.ok acc))
    else
      let accNext := acc ++ batch
      if batch.length < 25 then ([offset], some (.ok accNext))
      else
        let r := getAllClosedPositionsResp rest (offset + 25) accNext
        (offset :: r.1, r.2)

/-- While-loop of PolymarketAPI.get_all_user_positions with scripted
responses.  The except-clause at lines 324-330 is identical to the
closed-positions one: 429 retries the same offset, others re-raise. -/
def getAllUserPositionsResp :
    List (HttpResp α) → Nat → List α → List Nat × Option (Except Nat (List α))
  | [], offset, _ => ([offset], none)
  | .err code :: rest, offset, acc =>
    if code = 429 then
      let r := getAllUserPositionsResp rest offset acc
      (offset :: r.1, r.2)
    else ([offset], some (.error code))
  | .ok batch :: rest, offset, acc =>
    if batch.length = 0 then ([offset], some (.ok acc))
    else
      let accNext := acc ++ batch
      if batch.length < 500 then ([offset], some (.ok accNext))
      else
        let r := getAllUserPositionsResp rest (offset + 500) accNext
        (offset :: r.1, r.2)

/-- While-loop of PolymarketAPI.get_all_user_trades with scripted
responses.  get_all_user_trades has no try/except around the page request
(lines 576-612), so any HTTP error raised by raise_for_status - a 429
included - propagates immediately out of the loop. -/
def getAllUserTradesResp (maxResults : Option Nat) :
    List (HttpResp α) → Nat → List α → List Nat × Option (Except Nat (List α))
  | [], offset, _ => ([offset], none)
  | .err code :: _, offset, _ => ([offset], some (.error code))
  | .ok batch :: rest, offset, acc =>
    let accNext := acc ++ batch
    if batch.length < 500 then ([offset], some (.ok accNext))
    else if maxReached maxResults accNext.length then
      ([offset], some (.ok (accNext.take (maxResults.getD 0))))
    else if 10000 ≤ offset + 500 then ([offset], some (.ok accNext))
    else
      let r := getAllUserTradesResp maxResults rest (offset + 500) accNext
      (offset :: r.1, r.2)

/-! ## Leaderboard batcher and snapshot collector -/

/-- For-loop of PolymarketAPI.scrape_leaderboard
(src/polymarket_api.py lines 29-61) against an endpoint holding `data`:
`batchesLeft` counts the remaining iterations of
`for i in range(num_batches)`, `i` is the loop index (offset = i * 20),
and the loop breaks early on a batch shorter than `batch_size = 20`
(line 56).  The second component counts requests issued. -/
def scrapeLeaderboardGo (data : List α) :
    Nat → Nat → List α → List α × Nat
  | 0, _, acc => (acc, 0)
  | batchesLeft + 1, i, acc =>
    let batch := (data.drop (i * 20)).take 20
    let accNext := acc ++ batch
    if batch.length < 20 then (accNext, 1)
    else
      let r := scrapeLeaderboardGo data batchesLeft (i + 1) accNext
      (r.1, r.2 + 1)

/-- PolymarketAPI.scrape_leaderboard on a mock endpoint holding `data`:
`num_batches = (total + batch_size - 1) // batch_size` (line 36). -/
def scrapeLeaderboard (data : List α) (total : Nat) : List α × Nat :=
  scrapeLeaderboardGo data ((total + 20 - 1) / 20) 0 []

/-- Fixed category list of scrape_leaderboard_snapshot
(src/polymarket_api.py lines 98-109). -/
def categories : List String :=
  ["overall", "politics", "sports", "crypto", "finance",
   "culture", "mentions", "weather", "economics", "tech"]

/-- Retry loop of scrape_leaderboard_snapshot for one
(timeframe, category) pair (lines 124-160): the pair succeeds iff some
attempt index below `maxRetries` succeeds, where `ok tf cat a` is the
outcome of attempt `a` of the pair. -/
def pairSucceeds (maxRetries : Nat) (ok : String → String → Nat → Bool)
    (tf cat : String) : Bool :=
  (List.range maxRetries).any (ok tf cat)

/-- Number of attempts the retry loop actually runs for one pair: it
stops at the first success, otherwise exhausts `maxRetries`. -/
def attemptsUsedGo (okAttempt : Nat → Bool) : Nat → Nat → Nat
  | 0, _ => 0
  | n + 1, a => if okAttempt a then 1 else 1 + attemptsUsedGo okAttempt n (a + 1)

/-- Attempts consumed by the retry loop of one (timeframe, category) pair. -/
def attemptsUsed (maxRetries : Nat) (ok : String → String → Nat → Bool)
    (tf cat : String) : Nat :=
  attemptsUsedGo (ok tf cat) maxRetries 0

/-- Rows accumulated in all_data by scrape_leaderboard_snapshot
(lines 116-160): the two nested for-loops visit timeframes in order, then
the 10 categories in order, and append the normalized user rows of every
pair whose retry loop succeeded.  `usersFor tf cat` is what
scrape_leaderboard returns for the pair; a row is kept abstract as the
(timeframe, category, user) triple. -/
def snapshotRows (timeframes : List String) (maxRetries : Nat)
    (ok : String → String → Nat → Bool)
    (usersFor : String → String → List υ) : List (String × String × υ) :=
  timeframes.flatMap fun tf =>
    categories.flatMap fun cat =>
      if pairSucceeds maxRetries ok tf cat then
        (usersFor tf cat).map (fun u => (tf, cat, u))
      else []

/-- failed_scrapes accumulated by scrape_leaderboard_snapshot
(lines 112, 158-160): the pairs, in visit order, whose retry loop
exhausted all attempts. -/
def failedScrapes (timeframes : List String) (maxRetries : Nat)
    (ok : String → String → Nat → Bool) : List (String × String) :=
  timeframes.flatMap fun tf =>
    categories.filterMap fun cat =>
      if pairSucceeds maxRetries ok tf cat then none else some (tf, cat)

/-- PolymarketAPI.scrape_leaderboard_snapshot (lines 63-194) with the
daily CSV store passed explicitly: the snapshot rows are appended to the
store (to_csv at lines 173-188, append and create both extend the stored
row list) BEFORE the quality gate at lines 190-192 runs, so the store is
extended even on a run that then raises.  The gate
`len(failed_scrapes) > total_scrapes * 0.3` is modelled exactly as
`10 * failed > 3 * total`: total_scrapes is always 10 * len(timeframes)
(line 113), and for every such operand the double product
`total_scrapes * 0.3` rounds to exactly 3 * len(timeframes), so the
float comparison and the rational one agree. -/
def scrapeLeaderboardSnapshotStore (timeframes : List String)
    (maxRetries : Nat) (ok : String → String → Nat → Bool)
    (usersFor : String → String → List υ)
    (store : List (String × String × υ)) :
    List (String × String × υ) × Except String (List (String × String × υ)) :=
  let snapshot := snapshotRows timeframes maxRetries ok usersFor
  let failed := failedScrapes timeframes maxRetries ok
  let totalScrapes := categories.length * timeframes.length
  let storeAfter := store ++ snapshot
  if 10 * failed.length > 3 * totalScrapes then
    (storeAfter, .error "Scrape quality too low")
  else
    (storeAfter, .ok snapshot)

/-- Result of PolymarketAPI.scrape_leaderboard_snapshot: the returned
DataFrame, or the quality-gate error. -/
def scrapeLeaderboardSnapshot (timeframes : List String) (maxRetries : Nat)
    (ok : String → String → Nat → Bool)
    (usersFor : String → String → List υ) :
    Except String (List (String × String × υ)) :=
  (scrapeLeaderboardSnapshotStore timeframes maxRetries ok usersFor []).2

/-! ## Position table, deduplication (PortfolioAnalyzer.process_trades) -/

/-- Row of the merged position table self.df, restricted to the columns
the groupby-aggregation of process_trades reads
(src/polymarket_portfolioAnalyzer.py lines 314-321). -/
structure PosRow where
  asset : Nat
  title : String
  eventSlug : String
  realizedPnl : ℚ
  closed : Bool
  timestamp : Nat
deriving DecidableEq

/-- Group keys of `df.groupby('asset')`: the distinct asset ids, in
ascending order (pandas sorts group keys by default). -/
def groupKeys (rows : List PosRow) : List Nat :=
  ((rows.map PosRow.asset).dedup).insertionSort (· ≤ ·)

/-- Rows of one groupby group, in original row order. -/
def groupFor (rows : List PosRow) (a : Nat) : List PosRow :=
  rows.filter (fun r => r.asset == a)

/-- Aggregation dictionary of process_trades (lines 314-321) applied to
one group: title/eventSlug 'first', realizedPnl 'sum', closed
`lambda x: all(x)`, timestamp 'max' (modelled as a fold of max over the
group, with 0 below every timestamp); the asset column is the group key. -/
def aggRow (a : Nat) (g : List PosRow) : PosRow :=
  { asset := a
    title := ((g.head?).map PosRow.title).getD ""
    eventSlug := ((g.head?).map PosRow.eventSlug).getD ""
    realizedPnl := (g.map PosRow.realizedPnl).sum
    closed := g.all PosRow.closed
    timestamp := (g.map PosRow.timestamp).foldr max 0 }

/-- df_aggregated of PortfolioAnalyzer.process_trades (lines 314-321):
one aggregated row per distinct asset id. -/
def processTradesAgg (rows : List PosRow) : List PosRow :=
  (groupKeys rows).map (fun a => aggRow a (groupFor rows a))

/-! ## Client-side date-window filtering -/

/-- Inner filter steps shared by PortfolioAnalyzer.load_positions
(lines 119-122) and load_trades (lines 240-247): if a start bound is set
keep timestamp >= start, then if an end bound is set keep
timestamp <= end. -/
def dateFilterSteps (s e : Option Int) (ts : α → Int) (rows : List α) :
    List α :=
  let r1 := match s with
    | some a => rows.filter (fun r => decide (a ≤ ts r))
    | none => rows
  match e with
  | some b => r1.filter (fun r => decide (ts r ≤ b))
  | none => r1

/-- Client-side window filter of load_positions (lines 117-122): guarded
by `if (self.start_date or self.end_date) and len(self.df) > 0`. -/
def clientDateFilterPositions (s e : Option Int) (ts : α → Int)
    (rows : List α) : List α :=
  if (s.isSome || e.isSome) && decide (0 < rows.length) then
    dateFilterSteps s e ts rows
  else rows

/-- Client-side window filter of load_trades (lines 238-247): guarded by
`if self.start_date or self.end_date` only. -/
def clientDateFilterTrades (s e : Option Int) (ts : α → Int)
    (rows : List α) : List α :=
  if s.isSome || e.isSome then dateFilterSteps s e ts rows
  else rows

/-! ## load_positions: merge of closed and open positions (C9) -/

/-- Closed-position row of load_positions, restricted to the fields the
merge and filter read: the API timestamp (closing time, epoch seconds). -/
structure ClosedPosRaw where
  asset : Nat
  timestamp : Int
deriving DecidableEq

/-- Open-position row of load_positions: the API endDate, which may be
missing (empty string or null, both coerced to missing at lines 95-98). -/
structure OpenPosRaw where
  asset : Nat
  endDate : Option Int
deriving DecidableEq

/-- Row of the merged position table self.df (timestamp column plus the
closed flag and asset id). -/
structure MergedPos where
  asset : Nat
  timestamp : Int
  closed : Bool
deriving DecidableEq

/-- Sentinel `far_future = pd.Timestamp('2099-12-31')` of load_positions
line 104, as epoch seconds. -/
def farFuture : Int := 4102358400

/-- Closed-position processing of load_positions (lines 70-83): the
timestamp column is the API closing timestamp, closed = True. -/
def processClosed (c : ClosedPosRaw) : MergedPos :=
  { asset := c.asset, timestamp := c.timestamp, closed := true }

/-- Open-position processing of load_positions (lines 86-109): closed =
False, timestamp is copied from endDate (line 101) and missing endDates
get the far-future sentinel (line 105). -/
def processOpen (p : OpenPosRaw) : MergedPos :=
  { asset := p.asset, timestamp := p.endDate.getD farFuture, closed := false }

/-- pd.concat([df_closed, df_open]) of load_positions line 112: closed
rows first, then open rows. -/
def mergedPositions (closedRows : List ClosedPosRaw)
    (openRows : List OpenPosRaw) : List MergedPos :=
  closedRows.map processClosed ++ openRows.map processOpen

/-- sort_values(by='timestamp', ascending=False) of load_positions
line 113. -/
def sortTimestampDesc (l : List MergedPos) : List MergedPos :=
  l.insertionSort (fun p q => q.timestamp ≤ p.timestamp)

/-- PortfolioAnalyzer.load_positions (lines 52-136) producing self.df:
concat closed then open (line 112), sort by timestamp descending
(line 113), then the client-side window filter of lines 117-122. -/
def loadPositions (closedRows : List ClosedPosRaw)
    (openRows : List OpenPosRaw) (s e : Option Int) : List MergedPos :=
  clientDateFilterPositions s e MergedPos.timestamp
    (sortTimestampDesc (mergedPositions closedRows openRows))

/-! ## Portfolio summary ratios (create_summary and portfolio_summary) -/

/-- Row of self.summary_df restricted to the columns portfolio_summary
reads (realizedPnl, closed, total_invested). -/
structure SummaryRow where
  realizedPnl : ℚ
  closed : Bool
  totalInvested : ℚ
deriving DecidableEq

/-- roi_total_capital of create_summary (lines 389-391):
`api_pnl / total_invested * 100 if total_invested > 0 else 0`. -/
def roiPct (apiPnl totalInvested : ℚ) : ℚ :=
  if 0 < totalInvested then apiPnl / totalInvested * 100 else 0

/-- overall_roi of portfolio_summary (line 466):
`total_pnl / total_invested * 100 if total_invested > 0 else 0`. -/
def overallRoi (totalPnl totalInvested : ℚ) : ℚ :=
  if 0 < totalInvested then totalPnl / totalInvested * 100 else 0

/-- closed_positions of portfolio_summary (line 468). -/
def closedRowsOf (summary : List SummaryRow) : List SummaryRow :=
  summary.filter (fun r => r.closed)

/-- winning of portfolio_summary (line 469): closed rows with positive
realizedPnl. -/
def winningRowsOf (summary : List SummaryRow) : List SummaryRow :=
  (closedRowsOf summary).filter (fun r => decide (0 < r.realizedPnl))

/-- losing of portfolio_summary (line 470): closed rows with negative
realizedPnl. -/
def losingRowsOf (summary : List SummaryRow) : List SummaryRow :=
  (closedRowsOf summary).filter (fun r => decide (r.realizedPnl < 0))

/-- win_rate of portfolio_summary (lines 472-475). -/
def winRate (summary : List SummaryRow) : ℚ :=
  if 0 < (closedRowsOf summary).length then
    ((winningRowsOf summary).length : ℚ)
      / ((closedRowsOf summary).length : ℚ) * 100
  else 0

/-- avg_win of portfolio_summary (line 476): mean of the winning rows'
realizedPnl, 0 when there are none. -/
def avgWin (summary : List SummaryRow) : ℚ :=
  if 0 < (winningRowsOf summary).length then
    ((winningRowsOf summary).map SummaryRow.realizedPnl).sum
      / ((winningRowsOf summary).length : ℚ)
  else 0

/-- avg_loss of portfolio_summary (line 477). -/
def avgLoss (summary : List SummaryRow) : ℚ :=
  if 0 < (losingRowsOf summary).length then
    ((losingRowsOf summary).map SummaryRow.realizedPnl).sum
      / ((losingRowsOf summary).length : ℚ)
  else 0

/-- profit_factor of portfolio_summary (lines 479-482):
`abs((avg_win * len(winning)) / (avg_loss * len(losing)))` when there is
at least one losing position and avg_loss is nonzero, else 0. -/
def profitFactor (summary : List SummaryRow) : ℚ :=
  if 0 < (losingRowsOf summary).length ∧ avgLoss summary ≠ 0 then
    |avgWin summary * ((winningRowsOf summary).length : ℚ)
      / (avgLoss summary * ((losingRowsOf summary).length : ℚ))|
  else 0

/-! ## Helper lemmas: the trades pagination loop -/

theorem maxReached_some_iff (m c : Nat) :
    maxReached (some m) c = true ↔ m ≠ 0 ∧ m ≤ c := by
  simp [maxReached]

/-- Whatever the parameters, the trades loop only ever returns an initial
segment of the server data: records come back in server order, without
duplicates and without gaps. -/
theorem tradesLoop_take (data : List α) (maxR : Option Nat) :
    ∀ offset acc, acc = data.take offset →
      ∃ k, (getAllUserTradesLoop data maxR offset acc).1 = data.take k := by
  intro offset acc h
  induction offset, acc using getAllUserTradesLoop.induct data maxR with
  | case1 offset acc batch hshort =>
    exact ⟨offset + 500, by
      rw [getAllUserTradesLoop, if_pos hshort, h, ← List.take_add]⟩
  | case2 offset acc batch accNext hshort hmax =>
    refine ⟨min (maxR.getD 0) (offset + 500), ?_⟩
    rw [getAllUserTradesLoop, if_neg hshort, if_pos hmax]
    simp only [h, ← List.take_add, List.take_take]
  | case3 offset acc batch accNext hshort hmax hcap =>
    exact ⟨offset + 500, by
      rw [getAllUserTradesLoop, if_neg hshort, if_neg hmax, if_pos hcap, h,
        ← List.take_add]⟩
  | case4 offset acc batch accNext hshort hmax hcap ih =>
    rw [getAllUserTradesLoop, if_neg hshort, if_neg hmax, if_neg hcap]
    exact ih (by simp only [accNext, batch, h, ← List.take_add])

/-- With no max_results the trades loop returns the first 10000 records
of the server data and issues min(N/500 + 1, 20) page requests, where N
counts the records available. -/
theorem tradesLoop_none (data : List α) :
    ∀ offset acc, acc = data.take offset → offset % 500 = 0 →
      offset < 10000 →
      getAllUserTradesLoop data none offset acc =
        (data.take 10000,
          min ((data.length - offset) / 500 + 1) ((10000 - offset) / 500)) := by
  intro offset acc h hmod hlt
  induction offset, acc using getAllUserTradesLoop.induct data none with
  | case1 offset acc batch hshort =>
    rw [getAllUserTradesLoop, if_pos hshort]
    have hb : batch.length = min 500 (data.length - offset) := by
      simp [batch]
    have hend : data.length < offset + 500 := by omega
    have hoff : offset ≤ 9500 := by omega
    have e1 : acc ++ batch = data := by
      simp only [batch, h, ← List.take_add]
      exact List.take_of_length_le (by omega)
    simp only [Prod.mk.injEq]
    refine ⟨by rw [e1, List.take_of_length_le (by omega)], by omega⟩
  | case2 offset acc batch accNext hshort hmax =>
    simp [maxReached] at hmax
  | case3 offset acc batch accNext hshort hmax hcap =>
    rw [getAllUserTradesLoop, if_neg hshort, if_neg hmax, if_pos hcap]
    have hb : batch.length = min 500 (data.length - offset) := by
      simp [batch]
    have hoff : offset = 9500 := by omega
    have hN : 10000 ≤ data.length := by omega
    have e1 : acc ++ batch = data.take 10000 := by
      simp only [batch, h, ← List.take_add]
      rw [hoff]
    simp only [Prod.mk.injEq]
    exact ⟨e1, by omega⟩
  | case4 offset acc batch accNext hshort hmax hcap ih =>
    have hb : batch.length = min 500 (data.length - offset) := by
      simp [batch]
    have hfull : offset + 500 ≤ data.length := by omega
    have hrec := ih (by simp only [accNext, batch, h, ← List.take_add])
      (by omega) (by omega)
    rw [getAllUserTradesLoop, if_neg hshort, if_neg hmax, if_neg hcap]
    simp only [hrec, Prod.mk.injEq]
    exact ⟨trivial, by omega⟩

/-- When a positive max_results m is reachable at a full-page boundary
(m at most 500 * (N / 500), and within the offset cap), the trades loop
returns exactly the first m records. -/
theorem tradesLoop_some (data : List α) (m : Nat) (hm0 : 0 < m)
    (hmN : m ≤ 500 * (data.length / 500)) (hm10 : m ≤ 10000) :
    ∀ offset acc, acc = data.take offset → offset % 500 = 0 → offset < m →
      (getAllUserTradesLoop data (some m) offset acc).1 = data.take m := by
  have hNd : 500 * (data.length / 500) ≤ data.length := by omega
  intro offset acc h hmod hlt
  induction offset, acc using getAllUserTradesLoop.induct data (some m) with
  | case1 offset acc batch hshort =>
    exfalso
    have hNshort : data.length - offset < 500 := by
      simp only [batch, List.length_take, List.length_drop] at hshort
      omega
    omega
  | case2 offset acc batch accNext hshort hmax =>
    rw [getAllUserTradesLoop, if_neg hshort, if_pos hmax]
    have hlen : accNext.length ≤ offset + 500 := by
      simp only [accNext, batch, h, List.length_append, List.length_take,
        List.length_drop]
      omega
    have hm' : m ≤ offset + 500 :=
      le_trans ((maxReached_some_iff _ _).mp hmax).2 hlen
    have e1 : acc ++ (data.drop offset).take 500 = data.take (offset + 500) := by
      rw [h, ← List.take_add]
    simp only [Option.getD_some]
    rw [e1, List.take_take, min_eq_left hm']
  | case3 offset acc batch accNext hshort hmax hcap =>
    exfalso
    have hNfull : 500 ≤ data.length - offset := by
      simp only [batch, List.length_take, List.length_drop] at hshort
      omega
    have hlen : accNext.length = offset + 500 := by
      simp only [accNext, batch, h, List.length_append, List.length_take,
        List.length_drop]
      omega
    have : ¬(m ≠ 0 ∧ m ≤ accNext.length) := fun hc =>
      hmax ((maxReached_some_iff _ _).mpr hc)
    omega
  | case4 offset acc batch accNext hshort hmax hcap ih =>
    have hNfull : 500 ≤ data.length - offset := by
      simp only [batch, List.length_take, List.length_drop] at hshort
      omega
    have hlen : accNext.length = offset + 500 := by
      simp only [accNext, batch, h, List.length_append, List.length_take,
        List.length_drop]
      omega
    have hnm : ¬(m ≠ 0 ∧ m ≤ accNext.length) := fun hc =>
      hmax ((maxReached_some_iff _ _).mpr hc)
    rw [getAllUserTradesLoop, if_neg hshort, if_neg hmax, if_neg hcap]
    exact ih (by simp only [accNext, batch, h, ← List.take_add])
      (by omega) (by omega)

/-- With no max_results, get_all_user_trades returns the first 10000
records of the server data. -/
theorem getAllUserTrades_none_eq (data : List α) :
    getAllUserTrades data none = data.take 10000 := by
  have h := tradesLoop_none data 0 [] rfl (by omega) (by omega)
  unfold getAllUserTrades
  simp only [h]

/-- With no max_results, get_all_user_trades issues min(N / 500 + 1, 20)
page requests for N available records. -/
theorem getAllUserTradesRequests_none_eq (data : List α) :
    getAllUserTradesRequests data none = min (data.length / 500 + 1) 20 := by
  have h := tradesLoop_none data 0 [] rfl (by omega) (by omega)
  unfold getAllUserTradesRequests
  simp only [h]
  omega

/-- A first page already shorter than 500 ends the trades loop at once:
everything available is returned, whatever max_results says. -/
theorem getAllUserTrades_short (data : List α) (maxR : Option Nat)
    (h : data.length < 500) :
    getAllUserTrades data maxR = data ∧
      getAllUserTradesRequests data maxR = 1 := by
  have hcond : ((data.drop 0).take 500).length < 500 := by
    simp [List.length_take]
    omega
  have e : (data.drop 0).take 500 = data := by
    simp [List.take_of_length_le (le_of_lt h)]
  constructor
  · unfold getAllUserTrades
    rw [getAllUserTradesLoop, if_pos hcond, e]
    simp
  · unfold getAllUserTradesRequests
    rw [getAllUserTradesLoop, if_pos hcond]

/-! ## Helper lemmas: the open- and closed-position pagination loops -/

/-- The open-positions loop walks the endpoint to exhaustion: it returns
every record, for data of any size - there is no offset cap anywhere in
get_all_user_positions. -/
theorem getAllUserPositionsLoop_eq (data : List α) :
    ∀ offset acc, acc = data.take offset →
      getAllUserPositionsLoop data offset acc = data := by
  intro offset acc h
  induction offset, acc using getAllUserPositionsLoop.induct data with
  | case1 offset acc batch h0 =>
    rw [getAllUserPositionsLoop, dif_pos h0]
    have hb : batch.length = min 500 (data.length - offset) := by
      simp [batch]
    rw [h]
    exact List.take_of_length_le (by omega)
  | case2 offset acc batch h0 h1 =>
    rw [getAllUserPositionsLoop, dif_neg h0, dif_pos h1]
    have hb : batch.length = min 500 (data.length - offset) := by
      simp [batch]
    have e1 : acc ++ (data.drop offset).take 500 = data.take (offset + 500) := by
      rw [h, ← List.take_add]
    rw [e1]
    exact List.take_of_length_le (by omega)
  | case3 offset acc batch h0 accNext h1 ih =>
    rw [getAllUserPositionsLoop, dif_neg h0, dif_neg h1]
    exact ih (by simp only [accNext, batch, h, ← List.take_add])

/-- Same for the closed-positions loop (page size 25, no date window). -/
theorem getAllClosedPositionsLoop_eq (data : List α) :
    ∀ offset acc, acc = data.take offset →
      getAllClosedPositionsLoop data offset acc = data := by
  intro offset acc h
  induction offset, acc using getAllClosedPositionsLoop.induct data with
  | case1 offset acc batch h0 =>
    rw [getAllClosedPositionsLoop, dif_pos h0]
    have hb : batch.length = min 25 (data.length - offset) := by
      simp [batch]
    rw [h]
    exact List.take_of_length_le (by omega)
  | case2 offset acc batch h0 h1 =>
    rw [getAllClosedPositionsLoop, dif_neg h0, dif_pos h1]
    have hb : batch.length = min 25 (data.length - offset) := by
      simp [batch]
    have e1 : acc ++ (data.drop offset).take 25 = data.take (offset + 25) := by
      rw [h, ← List.take_add]
    rw [e1]
    exact List.take_of_length_le (by omega)
  | case3 offset acc batch h0 accNext h1 ih =>
    rw [getAllClosedPositionsLoop, dif_neg h0, dif_neg h1]
    exact ih (by simp only [accNext, batch, h, ← List.take_add])

/-- get_all_user_positions returns the whole server list, no matter how
long it is. -/
theorem getAllUserPositions_eq (data : List α) :
    getAllUserPositions data = data :=
  getAllUserPositionsLoop_eq data 0 [] rfl

/-- get_all_closed_positions (no date window) returns the whole server
list, no matter how long it is. -/
theorem getAllClosedPositions_eq (data : List α) :
    getAllClosedPositions data = data :=
  getAllClosedPositionsLoop_eq data 0 [] rfl

/-! ## Helper lemmas: the leaderboard batcher -/

/-- Request count of the scrape_leaderboard for-loop: from batch index i
with `n` loop iterations left and n = ceil((N - 20 i) / 20), exactly n
requests are issued. -/
theorem scrapeLeaderboardGo_count (data : List α) :
    ∀ n i acc, 20 * i ≤ data.length →
      n = (data.length - 20 * i + 19) / 20 →
      (scrapeLeaderboardGo data n i acc).2 = n := by
  intro n
  induction n with
  | zero => intro i acc _ _; rfl
  | succ k ihk =>
    intro i acc hle hn
    have hb : ((data.drop (i * 20)).take 20).length
        = min 20 (data.length - i * 20) := by
      simp
    by_cases hc : ((data.drop (i * 20)).take 20).length < 20
    · rw [scrapeLeaderboardGo, if_pos hc]
      omega
    · rw [scrapeLeaderboardGo, if_neg hc]
      have : (scrapeLeaderboardGo data k (i + 1)
          (acc ++ (data.drop (i * 20)).take 20)).2 = k :=
        ihk (i + 1) _ (by omega) (by omega)
      simp only [this]

/-- scrape_leaderboard asked for exactly the N records the endpoint has
issues ceil(N / 20) page requests - for every N, multiple of 20 or not. -/
theorem scrapeLeaderboard_requests (data : List α) (total : Nat)
    (h : total = data.length) :
    (scrapeLeaderboard data total).2 = (data.length + 19) / 20 := by
  unfold scrapeLeaderboard
  rw [scrapeLeaderboardGo_count data _ 0 [] (by omega) (by omega)]
  omega

/-! ## Claim C1 -/

/-- C1 (amended).  get_all_user_trades always returns an initial segment
of the records the endpoint serves - server order, no duplicates, no
gaps.  With no max_results and at most 10000 available records it
returns exactly all of them.  With max_results = m > 0 it returns
exactly min(total_available, m) = m records provided the bound is
reached at a full-page boundary, that is m ≤ 500 * (total / 500) and
m ≤ 10000; outside that proviso the final short page is returned whole,
so the result can exceed max_results (see the counterexample). -/
theorem claim_C1_amended (data : List Nat) (maxR : Option Nat) :
    (∃ k, getAllUserTrades data maxR = data.take k) ∧
    (maxR = none → data.length ≤ 10000 → getAllUserTrades data maxR = data) ∧
    (∀ m, maxR = some m → 0 < m → m ≤ 500 * (data.length / 500) →
      m ≤ 10000 →
      getAllUserTrades data maxR = data.take m ∧
        (getAllUserTrades data maxR).length = min data.length m) := by
  refine ⟨tradesLoop_take data maxR 0 [] rfl, ?_, ?_⟩
  · rintro rfl hN
    rw [getAllUserTrades_none_eq]
    exact List.take_of_length_le hN
  · rintro m rfl hm0 hmN hm10
    have h1 : getAllUserTrades data (some m) = data.take m :=
      tradesLoop_some data m hm0 hmN hm10 0 [] rfl (by omega) hm0
    refine ⟨h1, ?_⟩
    rw [h1, List.length_take]
    omega

/-- C1 witness: 1200 records with max_results 500 (reached at a full
page) give exactly the first 500 records. -/
theorem claim_C1_witness :
    getAllUserTrades (List.range 1200) (some 500) = (List.range 1200).take 500 :=
  ((claim_C1_amended (List.range 1200) (some 500)).2.2 500 rfl (by norm_num)
    (by simp only [List.length_range]; norm_num)
    (by norm_num)).1

/-- C1 counterexample: the endpoint has 2 records and the caller asks for
at most 1; the very first page is short (2 < 500), so the loop breaks
before the max_results check ever runs and returns both records - more
than max_results, and not min(2, 1) = 1. -/
theorem claim_C1_counterexample :
    getAllUserTrades [0, 1] (some 1) = [0, 1] ∧
      ¬((getAllUserTrades [0, 1] (some 1)).length ≤ 1) := by
  have h := (getAllUserTrades_short [0, 1] (some 1) (by norm_num)).1
  refine ⟨h, ?_⟩
  rw [h]
  norm_num

/-! ## Claim C5 -/

/-- C5 (amended).  Every pagination loop stops on a page shorter than
requested, but the 10000-offset cap exists only in the trades loop:
get_all_user_trades returns at most the first 10000 records, while
get_all_user_positions and get_all_closed_positions have no cap at all
and return the complete server list however long it is (the
counterexample fetches 10500 open positions). -/
theorem claim_C5_amended (data : List Nat) :
    getAllUserTrades data none = data.take 10000 ∧
    getAllUserPositions data = data ∧
    getAllClosedPositions data = data := by
  exact ⟨getAllUserTrades_none_eq data, getAllUserPositions_eq data,
    getAllClosedPositions_eq data⟩

/-- C5 counterexample: with 10500 open positions on the server the
open-positions loop runs past offset 10000 and returns all 10500
records, where the claim says it would stop at the cap with at most
10000. -/
theorem claim_C5_counterexample :
    ¬((getAllUserPositions (List.replicate 10500 (0 : Nat))).length ≤ 10000) := by
  rw [getAllUserPositions_eq, List.length_replicate]
  norm_num

/-! ## Claim C6 -/

/-- C6 (amended).  The trades fetcher issues min(N / 500 + 1, 20) page
requests for N available records: ceil(N / 500) when N is not a multiple
of 500 (the short final page ends the loop), but N / 500 + 1 when N is a
multiple of 500 below the cap - an extra, empty page is requested to
detect the end of data.  The leaderboard batcher asked for exactly the N
records the endpoint has issues ceil(N / 20) requests, multiple of 20 or
not. -/
theorem claim_C6_amended (data : List Nat) (total : Nat) :
    getAllUserTradesRequests data none = min (data.length / 500 + 1) 20 ∧
    (total = data.length →
      (scrapeLeaderboard data total).2 = (data.length + 19) / 20) := by
  exact ⟨getAllUserTradesRequests_none_eq data,
    scrapeLeaderboard_requests data total⟩

/-- C6 witness: 700 trades need 2 requests (short page detected), and a
leaderboard scrape of 30 users in batches of 20 needs 2 requests. -/
theorem claim_C6_witness :
    getAllUserTradesRequests (List.range 700) none = 2 ∧
      (scrapeLeaderboard (List.range 30) 30).2 = 2 := by
  constructor
  · have h := (claim_C6_amended (List.range 700) 0).1
    rw [List.length_range] at h
    rw [h]
    omega
  · have h := (claim_C6_amended (List.range 30) 30).2
      (by simp only [List.length_range])
    rw [List.length_range] at h
    rw [h]

/-- C6 counterexample: for N = 500 (a multiple of the page size) the
trades fetcher issues 2 requests, not ceil(500 / 500) = 1 - the second
request is the empty page that signals the end of data. -/
theorem claim_C6_counterexample :
    getAllUserTradesRequests (List.replicate 500 (0 : Nat)) none = 2 ∧
      ¬(getAllUserTradesRequests (List.replicate 500 (0 : Nat)) none
          = (List.replicate 500 (0 : Nat)).length / 500) := by
  have h := getAllUserTradesRequests_none_eq (List.replicate 500 (0 : Nat))
  rw [List.length_replicate] at h
  have h2 : getAllUserTradesRequests (List.replicate 500 (0 : Nat)) none = 2 := by
    rw [h]
    omega
  refine ⟨h2, ?_⟩
  rw [h2, List.length_replicate]
  norm_num

/-! ## Claim C4 -/

/-- Consuming one 429 response leaves the closed-positions loop at the
same offset with the same accumulator: one more request at the same
offset, nothing else changes. -/
theorem closedResp_err429 (rest : List (HttpResp α)) (offset : Nat)
    (acc : List α) :
    getAllClosedPositionsResp (HttpResp.err 429 :: rest) offset acc =
      (offset :: (getAllClosedPositionsResp rest offset acc).1,
        (getAllClosedPositionsResp rest offset acc).2) := by
  simp [getAllClosedPositionsResp]

/-- Any finite burst of 429 responses is absorbed by the closed-positions
loop without advancing the offset or consuming any retry budget. -/
theorem closedResp_replicate429 (k : Nat) (rest : List (HttpResp α))
    (offset : Nat) (acc : List α) :
    getAllClosedPositionsResp (List.replicate k (HttpResp.err 429) ++ rest)
        offset acc =
      (List.replicate k offset ++ (getAllClosedPositionsResp rest offset acc).1,
        (getAllClosedPositionsResp rest offset acc).2) := by
  induction k with
  | zero => simp
  | succ n ih =>
    rw [List.replicate_succ, List.cons_append, closedResp_err429, ih,
      List.replicate_succ, List.cons_append]

/-- Same for the open-positions loop. -/
theorem openResp_err429 (rest : List (HttpResp α)) (offset : Nat)
    (acc : List α) :
    getAllUserPositionsResp (HttpResp.err 429 :: rest) offset acc =
      (offset :: (getAllUserPositionsResp rest offset acc).1,
        (getAllUserPositionsResp rest offset acc).2) := by
  simp [getAllUserPositionsResp]

/-- Any finite burst of 429 responses is absorbed by the open-positions
loop without advancing the offset. -/
theorem openResp_replicate429 (k : Nat) (rest : List (HttpResp α))
    (offset : Nat) (acc : List α) :
    getAllUserPositionsResp (List.replicate k (HttpResp.err 429) ++ rest)
        offset acc =
      (List.replicate k offset ++ (getAllUserPositionsResp rest offset acc).1,
        (getAllUserPositionsResp rest offset acc).2) := by
  induction k with
  | zero => simp
  | succ n ih =>
    rw [List.replicate_succ, List.cons_append, openResp_err429, ih,
      List.replicate_succ, List.cons_append]

/-- C4 (amended).  The open-position and closed-position loops absorb any
finite burst of 429 responses by re-requesting the same offset, one
request per 429, with no retry budget consumed (the burst length k is
arbitrary), and a non-429 HTTP error makes them raise immediately.  The
trades loop, by contrast, has no 429 handler at all: every HTTP error
code, 429 included, propagates out of get_all_user_trades immediately
after a single request. -/
theorem claim_C4_amended (k : Nat) (rest : List (HttpResp Nat))
    (offset : Nat) (acc : List Nat) :
    (getAllClosedPositionsResp (List.replicate k (HttpResp.err 429) ++ rest)
        offset acc =
      (List.replicate k offset ++ (getAllClosedPositionsResp rest offset acc).1,
        (getAllClosedPositionsResp rest offset acc).2)) ∧
    (getAllUserPositionsResp (List.replicate k (HttpResp.err 429) ++ rest)
        offset acc =
      (List.replicate k offset ++ (getAllUserPositionsResp rest offset acc).1,
        (getAllUserPositionsResp rest offset acc).2)) ∧
    (∀ code, code ≠ 429 →
      getAllClosedPositionsResp (HttpResp.err code :: rest) offset acc =
          ([offset], some (.error code)) ∧
        getAllUserPositionsResp (HttpResp.err code :: rest) offset acc =
          ([offset], some (.error code))) ∧
    (∀ code maxR,
      getAllUserTradesResp maxR (HttpResp.err code :: rest) offset acc =
        ([offset], some (.error code))) := by
  refine ⟨closedResp_replicate429 k rest offset acc,
    openResp_replicate429 k rest offset acc, ?_, ?_⟩
  · intro code hc
    constructor
    · rw [getAllClosedPositionsResp, if_neg hc]
    · rw [getAllUserPositionsResp, if_neg hc]
  · intro code maxR
    rfl

/-- C4 witness: a burst of two 429s then an empty page makes the closed
loop request offset 75 three times and succeed; a 500 error raises at
once from both position loops. -/
theorem claim_C4_witness :
    (getAllClosedPositionsResp
        [HttpResp.err 429, HttpResp.err 429, HttpResp.ok []] 75 ([] : List Nat) =
      ([75, 75, 75], some (.ok []))) ∧
    (getAllClosedPositionsResp [HttpResp.err 500] 25 ([] : List Nat) =
      ([25], some (.error 500))) := by
  constructor
  · have h := (claim_C4_amended 2 [HttpResp.ok []] 75 []).1
    simpa using h
  · exact ((claim_C4_amended 0 [] 25 []).2.2.1 500 (by decide)).1

/-- C4 counterexample: on the script "429 then an empty page" the
closed-positions loop retries the same offset and succeeds, but
get_all_user_trades raises the 429 immediately after its first request -
the claimed retry-on-429 does not exist in the trades loop. -/
theorem claim_C4_counterexample :
    getAllUserTradesResp none [HttpResp.err 429, HttpResp.ok []] 0
        ([] : List Nat) = ([0], some (.error 429)) ∧
    getAllClosedPositionsResp [HttpResp.err 429, HttpResp.ok []] 0
        ([] : List Nat) = ([0, 0], some (.ok [])) := by
  exact ⟨rfl, rfl⟩

/-! ## Claims C3 and C10 -/

/-- The per-pair retry loop never runs more than maxRetries attempts. -/
theorem attemptsUsedGo_le (okAttempt : Nat → Bool) :
    ∀ n a, attemptsUsedGo okAttempt n a ≤ n := by
  intro n
  induction n with
  | zero => intro a; exact Nat.le_refl 0
  | succ k ih =>
    intro a
    rw [attemptsUsedGo]
    by_cases h : okAttempt a = true
    · rw [if_pos h]; omega
    · rw [if_neg h]
      have := ih (a + 1)
      omega

/-- The snapshot run fails with the quality-gate error exactly when the
failed pairs exceed 30 percent of the category-timeframe product. -/
theorem scrapeSnapshot_error_iff (timeframes : List String) (maxRetries : Nat)
    (ok : String → String → Nat → Bool)
    (usersFor : String → String → List Nat) :
    (scrapeLeaderboardSnapshot timeframes maxRetries ok usersFor =
        .error "Scrape quality too low" ↔
      10 * (failedScrapes timeframes maxRetries ok).length >
        3 * (categories.length * timeframes.length)) ∧
    (¬(10 * (failedScrapes timeframes maxRetries ok).length >
        3 * (categories.length * timeframes.length)) →
      scrapeLeaderboardSnapshot timeframes maxRetries ok usersFor =
        .ok (snapshotRows timeframes maxRetries ok usersFor)) := by
  unfold scrapeLeaderboardSnapshot scrapeLeaderboardSnapshotStore
  by_cases hg : 10 * (failedScrapes timeframes maxRetries ok).length >
      3 * (categories.length * timeframes.length)
  · rw [if_pos hg]
    exact ⟨by simp [hg], fun hc => absurd hg hc⟩
  · rw [if_neg hg]
    exact ⟨by simp [hg], fun _ => rfl⟩

/-- C3.  Every (category, timeframe) pair is attempted at most max_retries
times; a pair that exhausts its retries is recorded in failed_scrapes
while the run continues; the run raises "Scrape quality too low" if and
only if more than 30 percent of the pairs failed; and over the 10
categories and one timeframe, up to 3 failures still return the partial
data while 4 or more failures raise. -/
theorem claim_C3 (timeframes : List String) (maxRetries : Nat)
    (ok : String → String → Nat → Bool)
    (usersFor : String → String → List Nat) :
    (∀ tf cat, attemptsUsed maxRetries ok tf cat ≤ maxRetries) ∧
    (scrapeLeaderboardSnapshot timeframes maxRetries ok usersFor =
        .error "Scrape quality too low" ↔
      10 * (failedScrapes timeframes maxRetries ok).length >
        3 * (categories.length * timeframes.length)) ∧
    (10 * (failedScrapes timeframes maxRetries ok).length ≤
        3 * (categories.length * timeframes.length) →
      scrapeLeaderboardSnapshot timeframes maxRetries ok usersFor =
        .ok (snapshotRows timeframes maxRetries ok usersFor)) ∧
    (timeframes = ["day"] →
      ((failedScrapes timeframes maxRetries ok).length ≤ 3 →
        scrapeLeaderboardSnapshot timeframes maxRetries ok usersFor =
          .ok (snapshotRows timeframes maxRetries ok usersFor)) ∧
      (4 ≤ (failedScrapes timeframes maxRetries ok).length →
        scrapeLeaderboardSnapshot timeframes maxRetries ok usersFor =
          .error "Scrape quality too low")) := by
  obtain ⟨hiff, hok⟩ :=
    scrapeSnapshot_error_iff timeframes maxRetries ok usersFor
  refine ⟨fun tf cat => attemptsUsedGo_le (ok tf cat) maxRetries 0, hiff,
    fun h => hok (by omega), ?_⟩
  rintro rfl
  have hlen : categories.length * (["day"] : List String).length = 10 := rfl
  constructor
  · intro h3
    exact hok (by rw [hlen]; omega)
  · intro h4
    exact hiff.mpr (by rw [hlen]; omega)

/-- C3 witness: over categories x ["day"] with only the category
"overall" ever succeeding, 9 of the 10 pairs fail and the run raises the
quality-gate error; the retry loop of any pair uses at most one attempt
when max_retries is 1. -/
theorem claim_C3_witness :
    scrapeLeaderboardSnapshot ["day"] 1 (fun _ cat _ => cat == "overall")
        (fun _ _ => ([0] : List Nat)) = .error "Scrape quality too low" ∧
    attemptsUsed 1 (fun _ cat _ => cat == "overall") "day" "politics" ≤ 1 := by
  refine ⟨((claim_C3 ["day"] 1 (fun _ cat _ => cat == "overall")
      (fun _ _ => ([0] : List Nat))).2.2.2 rfl).2 (by decide), ?_⟩
  exact (claim_C3 ["day"] 1 (fun _ cat _ => cat == "overall")
      (fun _ _ => ([0] : List Nat))).1 "day" "politics"

/-- C10.  The daily store is extended with every row collected from the
successful pairs BEFORE the quality gate runs: even when the run raises
the quality-gate error the store has already been mutated (it differs
from its previous state whenever any row was collected). -/
theorem claim_C10 (timeframes : List String) (maxRetries : Nat)
    (ok : String → String → Nat → Bool)
    (usersFor : String → String → List Nat)
    (store : List (String × String × Nat)) :
    (scrapeLeaderboardSnapshotStore timeframes maxRetries ok usersFor
        store).1 =
      store ++ snapshotRows timeframes maxRetries ok usersFor ∧
    ((scrapeLeaderboardSnapshotStore timeframes maxRetries ok usersFor
          store).2 = .error "Scrape quality too low" →
      snapshotRows timeframes maxRetries ok usersFor ≠ [] →
      (scrapeLeaderboardSnapshotStore timeframes maxRetries ok usersFor
          store).1 ≠ store) := by
  have hfst : (scrapeLeaderboardSnapshotStore timeframes maxRetries ok usersFor
      store).1 = store ++ snapshotRows timeframes maxRetries ok usersFor := by
    unfold scrapeLeaderboardSnapshotStore
    by_cases hg : 10 * (failedScrapes timeframes maxRetries ok).length >
        3 * (categories.length * timeframes.length)
    · rw [if_pos hg]
    · rw [if_neg hg]
  refine ⟨hfst, fun _ hne hcontra => hne ?_⟩
  rw [hfst] at hcontra
  have hlen := congrArg List.length hcontra
  rw [List.length_append] at hlen
  have h0 : (snapshotRows timeframes maxRetries ok usersFor).length = 0 := by
    omega
  exact List.length_eq_zero.mp h0

/-- C10 witness: a run over ["day"] in which only "overall" succeeds
fails the quality gate, yet afterwards the (initially empty) store holds
exactly the collected snapshot rows - the store was mutated by the
failing run. -/
theorem claim_C10_witness :
    (scrapeLeaderboardSnapshotStore ["day"] 1 (fun _ cat _ => cat == "overall")
        (fun _ _ => ([0] : List Nat)) []).1 =
      [] ++ snapshotRows ["day"] 1 (fun _ cat _ => cat == "overall")
        (fun _ _ => ([0] : List Nat)) ∧
    (scrapeLeaderboardSnapshotStore ["day"] 1 (fun _ cat _ => cat == "overall")
        (fun _ _ => ([0] : List Nat)) []).1 ≠ [] := by
  refine ⟨(claim_C10 ["day"] 1 _ _ []).1, (claim_C10 ["day"] 1 _ _ []).2 ?_ ?_⟩
  · exact (scrapeSnapshot_error_iff ["day"] 1 _ _).1.mpr (by decide)
  · decide

/-! ## Claim C2 -/

/-- Filtering a mapped list is mapping the filtered list. -/
theorem map_filter_swap (f : α → β) (p : β → Bool) (l : List α) :
    (l.map f).filter p = (l.filter (fun x => p (f x))).map f := by
  induction l with
  | nil => rfl
  | cons x t ih =>
    rw [List.map_cons]
    by_cases h : p (f x) = true
    · rw [List.filter_cons_of_pos h, List.filter_cons, if_pos h,
        List.map_cons, ih]
    · rw [List.filter_cons_of_neg h, List.filter_cons, if_neg h, ih]

/-- On a duplicate-free list, filtering for one of its members yields
exactly that member. -/
theorem filter_beq_of_nodup :
    ∀ {l : List Nat}, l.Nodup → ∀ {a : Nat}, a ∈ l →
      l.filter (fun x => x == a) = [a] := by
  intro l
  induction l with
  | nil => intro _ a ha; cases ha
  | cons b t ih =>
    intro hnd a ha
    rw [List.nodup_cons] at hnd
    rcases List.mem_cons.mp ha with h | h
    · have hb : (b == a) = true := by simp [h]
      have ht : t.filter (fun x => x == a) = [] := by
        rw [List.filter_eq_nil_iff]
        intro x hx
        simp only [beq_iff_eq]
        intro hxa
        exact hnd.1 (h ▸ hxa ▸ hx)
      rw [List.filter_cons, if_pos hb, ht, h]
    · have hb : (b == a) = false := by
        simp only [beq_eq_false_iff_ne]
        intro he
        exact hnd.1 (he ▸ h)
      simp [List.filter_cons, hb, ih hnd.2 h]

/-- Group keys of the deduplication are duplicate-free. -/
theorem groupKeys_nodup (rows : List PosRow) : (groupKeys rows).Nodup := by
  unfold groupKeys
  exact ((List.perm_insertionSort _ _).nodup_iff).mpr (List.nodup_dedup _)

/-- Every asset occurring in the table is a group key. -/
theorem mem_groupKeys {rows : List PosRow} {a : Nat}
    (ha : a ∈ rows.map PosRow.asset) : a ∈ groupKeys rows := by
  unfold groupKeys
  rw [(List.perm_insertionSort _ _).mem_iff]
  exact List.mem_dedup.mpr ha

/-- C2.  Deduplication groups the position rows by asset id: for every
asset occurring in the table, the aggregated table holds exactly one row
for it, whose realizedPnl is the sum over the group, whose closed flag
is the AND over the group, whose timestamp is the maximum over the
group, and whose title and eventSlug come from the group's first row;
in particular two rows sharing an asset with realizedPnl 10 and -3
collapse to one row with realizedPnl 7 and closed the AND of the two
closed flags. -/
theorem claim_C2 :
    (∀ (rows : List PosRow) (a : Nat), a ∈ rows.map PosRow.asset →
      (processTradesAgg rows).filter (fun r => r.asset == a) =
        [{ asset := a,
           title := (((rows.filter (fun r => r.asset == a)).head?).map
             PosRow.title).getD "",
           eventSlug := (((rows.filter (fun r => r.asset == a)).head?).map
             PosRow.eventSlug).getD "",
           realizedPnl := ((rows.filter (fun r => r.asset == a)).map
             PosRow.realizedPnl).sum,
           closed := (rows.filter (fun r => r.asset == a)).all PosRow.closed,
           timestamp := ((rows.filter (fun r => r.asset == a)).map
             PosRow.timestamp).foldr max 0 }]) ∧
    (∀ r1 r2 : PosRow, r1.asset = r2.asset → r1.realizedPnl = 10 →
      r2.realizedPnl = -3 →
      (processTradesAgg [r1, r2]).map PosRow.realizedPnl = [7] ∧
      (processTradesAgg [r1, r2]).map PosRow.closed =
        [r1.closed && r2.closed]) := by
  constructor
  · intro rows a ha
    have hrw : ({
        asset := a,
        title := (((rows.filter (fun r => r.asset == a)).head?).map
          PosRow.title).getD "",
        eventSlug := (((rows.filter (fun r => r.asset == a)).head?).map
          PosRow.eventSlug).getD "",
        realizedPnl := ((rows.filter (fun r => r.asset == a)).map
          PosRow.realizedPnl).sum,
        closed := (rows.filter (fun r => r.asset == a)).all PosRow.closed,
        timestamp := ((rows.filter (fun r => r.asset == a)).map
          PosRow.timestamp).foldr max 0 } : PosRow) =
        aggRow a (groupFor rows a) := rfl
    rw [hrw]
    unfold processTradesAgg
    rw [map_filter_swap]
    have hpred : (fun k => (aggRow k (groupFor rows k)).asset == a) =
        (fun k => k == a) := rfl
    rw [hpred]
    rw [filter_beq_of_nodup (groupKeys_nodup rows) (mem_groupKeys ha)]
    rfl
  · intro r1 r2 hasset h1 h2
    have ha : r2.asset = r1.asset := hasset.symm
    have hd1 : ([r1.asset] : List Nat).dedup = [r1.asset] := by
      rw [List.dedup_cons_of_not_mem (by simp)]
      simp
    have hd2 : ((r1.asset :: [r1.asset] : List Nat)).dedup = [r1.asset] := by
      rw [List.dedup_cons_of_mem (List.mem_singleton_self _)]
      exact hd1
    have hkeys : groupKeys [r1, r2] = [r1.asset] := by
      unfold groupKeys
      rw [List.map_cons, List.map_cons, List.map_nil, ha, hd2]
      rfl
    have hg : groupFor [r1, r2] r1.asset = [r1, r2] := by
      unfold groupFor
      rw [List.filter_cons_of_pos (by simp),
        List.filter_cons_of_pos (by simp [ha]), List.filter_nil]
    have hagg : processTradesAgg [r1, r2] =
        [aggRow r1.asset (groupFor [r1, r2] r1.asset)] := by
      unfold processTradesAgg
      rw [hkeys]
      rfl
    rw [hagg, hg]
    constructor
    · simp only [List.map_cons, List.map_nil, aggRow, h1, h2, List.sum_cons,
        List.sum_nil]
      norm_num
    · simp only [List.map_cons, List.map_nil, aggRow, List.all_cons,
        List.all_nil, Bool.and_true]

/-- C2 witness: two concrete rows with the same asset, realizedPnl 10 and
-3 and both closed, aggregate to one row with realizedPnl 7 and closed
true AND true. -/
theorem claim_C2_witness :
    (processTradesAgg [⟨1, "t", "s", 10, true, 5⟩,
        ⟨1, "u", "v", -3, true, 9⟩]).map PosRow.realizedPnl = [7] ∧
    (processTradesAgg [⟨1, "t", "s", 10, true, 5⟩,
        ⟨1, "u", "v", -3, true, 9⟩]).map PosRow.closed = [true && true] :=
  claim_C2.2 ⟨1, "t", "s", 10, true, 5⟩ ⟨1, "u", "v", -3, true, 9⟩ rfl rfl rfl

/-! ## Claims C7, C8 and C9 -/

/-- Filtering twice with the same predicate filters once. -/
theorem filter_idem (p : α → Bool) (l : List α) :
    (l.filter p).filter p = l.filter p := by
  induction l with
  | nil => rfl
  | cons x t ih =>
    by_cases h : p x = true
    · rw [List.filter_cons_of_pos h, List.filter_cons_of_pos h, ih]
    · rw [List.filter_cons_of_neg h, ih]

/-- A filter whose predicate already holds on every member is the
identity. -/
theorem filter_eq_self_of_mem (p : α → Bool) (l : List α)
    (h : ∀ x ∈ l, p x = true) : l.filter p = l := by
  induction l with
  | nil => rfl
  | cons x t ih =>
    rw [List.filter_cons_of_pos (h x (List.mem_cons_self x t)),
      ih (fun y hy => h y (List.mem_cons_of_mem x hy))]

/-- The start-then-end filter pair of the date window is idempotent. -/
theorem dateFilterSteps_idem (s e : Option Int) (ts : α → Int)
    (rows : List α) :
    dateFilterSteps s e ts (dateFilterSteps s e ts rows) =
      dateFilterSteps s e ts rows := by
  cases s with
  | none =>
    cases e with
    | none => rfl
    | some b => exact filter_idem _ _
  | some a =>
    cases e with
    | none => exact filter_idem _ _
    | some b =>
      have h1 : ((rows.filter (fun r => decide (a ≤ ts r))).filter
          (fun r => decide (ts r ≤ b))).filter (fun r => decide (a ≤ ts r)) =
          (rows.filter (fun r => decide (a ≤ ts r))).filter
            (fun r => decide (ts r ≤ b)) :=
        filter_eq_self_of_mem _ _ (fun x hx =>
          (List.mem_filter.mp (List.mem_filter.mp hx).1).2)
      show (((rows.filter (fun r => decide (a ≤ ts r))).filter
          (fun r => decide (ts r ≤ b))).filter
            (fun r => decide (a ≤ ts r))).filter
          (fun r => decide (ts r ≤ b)) =
        (rows.filter (fun r => decide (a ≤ ts r))).filter
          (fun r => decide (ts r ≤ b))
      rw [h1]
      exact filter_idem _ _

/-- C8.  The client-side [start, end] window filter is idempotent, both
in the load_positions form (guarded by a window being set and the table
being nonempty) and in the load_trades form (guarded by a window being
set): filtering an already-filtered table to the same window returns the
identical table. -/
theorem claim_C8 (s e : Option Int) (ts : α → Int) (rows : List α) :
    clientDateFilterPositions s e ts (clientDateFilterPositions s e ts rows) =
      clientDateFilterPositions s e ts rows ∧
    clientDateFilterTrades s e ts (clientDateFilterTrades s e ts rows) =
      clientDateFilterTrades s e ts rows := by
  constructor
  · unfold clientDateFilterPositions
    by_cases h1 : ((s.isSome || e.isSome) && decide (0 < rows.length)) = true
    · rw [if_pos h1]
      by_cases h2 : ((s.isSome || e.isSome) &&
          decide (0 < (dateFilterSteps s e ts rows).length)) = true
      · rw [if_pos h2, dateFilterSteps_idem]
      · rw [if_neg h2]
    · rw [if_neg h1, if_neg h1]
  · unfold clientDateFilterTrades
    by_cases h1 : (s.isSome || e.isSome) = true
    · rw [if_pos h1, if_pos h1, dateFilterSteps_idem]
    · rw [if_neg h1, if_neg h1]

/-- Members of the window filter with an end bound obey the end bound. -/
theorem mem_dateFilterSteps_end {s : Option Int} {b : Int} {ts : α → Int}
    {rows : List α} {p : α}
    (hp : p ∈ dateFilterSteps s (some b) ts rows) : ts p ≤ b :=
  of_decide_eq_true (List.mem_filter.mp hp).2

/-- C9.  In load_positions, an open position with a missing endDate is
assigned the far-future sentinel timestamp (2099-12-31) in the merged
table, and when an end_date earlier than the sentinel is supplied the
client-side window filter removes every row carrying the sentinel - so
open positions without a resolution date never appear in the resulting
position table. -/
theorem claim_C9 (closedRows : List ClosedPosRaw) (openRows : List OpenPosRaw)
    (s : Option Int) (b : Int) :
    (∀ q ∈ openRows, q.endDate = none →
      (processOpen q).timestamp = farFuture) ∧
    (b < farFuture →
      ∀ p ∈ loadPositions closedRows openRows s (some b),
        p.timestamp ≠ farFuture) := by
  constructor
  · intro q _ hnone
    simp [processOpen, hnone]
  · intro hb p hp
    unfold loadPositions clientDateFilterPositions at hp
    by_cases hg : ((s.isSome || (some b : Option Int).isSome) &&
        decide (0 < (sortTimestampDesc
          (mergedPositions closedRows openRows)).length)) = true
    · rw [if_pos hg] at hp
      have hle : p.timestamp ≤ b := mem_dateFilterSteps_end hp
      omega
    · rw [if_neg hg] at hp
      have h0 : ¬(0 < (sortTimestampDesc
          (mergedPositions closedRows openRows)).length) := by
        intro hpos
        exact hg (by simp [hpos])
      have h0' : sortTimestampDesc (mergedPositions closedRows openRows) = [] :=
        List.length_eq_zero.mp (by omega)
      rw [h0'] at hp
      cases hp

/-- C9 witness: one open position with no endDate gets the sentinel
timestamp, and with end_date 100 (before 2099-12-31) no row of the
loaded table carries the sentinel. -/
theorem claim_C9_witness :
    (processOpen ⟨7, none⟩).timestamp = farFuture ∧
    (∀ p ∈ loadPositions [] [⟨7, none⟩] none (some 100),
      p.timestamp ≠ farFuture) := by
  constructor
  · exact (claim_C9 [] [⟨7, none⟩] none 100).1 ⟨7, none⟩
      (List.mem_singleton_self _) rfl
  · exact (claim_C9 [] [⟨7, none⟩] none 100).2 (by decide)

/-- C7.  Every derived ratio is exactly 0 when its denominator is empty
or zero: roi_pct and overall_roi are 0 at total_invested = 0, win_rate
is 0 with no closed positions, profit_factor is 0 with no losing
positions or a zero avg_loss, and otherwise profit_factor equals
the absolute value of avg_win * win_count / (avg_loss * loss_count). -/
theorem claim_C7 (pnl : ℚ) (summary : List SummaryRow) :
    roiPct pnl 0 = 0 ∧
    overallRoi pnl 0 = 0 ∧
    (closedRowsOf summary = [] → winRate summary = 0) ∧
    (losingRowsOf summary = [] ∨ avgLoss summary = 0 →
      profitFactor summary = 0) ∧
    (losingRowsOf summary ≠ [] → avgLoss summary ≠ 0 →
      profitFactor summary =
        |avgWin summary * ((winningRowsOf summary).length : ℚ) /
          (avgLoss summary * ((losingRowsOf summary).length : ℚ))|) := by
  refine ⟨by simp [roiPct], by simp [overallRoi], ?_, ?_, ?_⟩
  · intro h
    simp [winRate, h]
  · rintro (h | h)
    · simp [profitFactor, h]
    · simp [profitFactor, h]
  · intro h1 h2
    rw [profitFactor, if_pos ⟨List.length_pos.mpr h1, h2⟩]

/-- C7 witness: the zero guards at empty inputs, and the profit-factor
formula on a two-row summary with one winning and one losing closed
position. -/
theorem claim_C7_witness :
    roiPct 5 0 = 0 ∧
    winRate [] = 0 ∧
    profitFactor [] = 0 ∧
    profitFactor [⟨-4, true, 10⟩, ⟨6, true, 10⟩] =
      |avgWin [⟨-4, true, 10⟩, ⟨6, true, 10⟩] *
          ((winningRowsOf [⟨-4, true, 10⟩, ⟨6, true, 10⟩]).length : ℚ) /
        (avgLoss [⟨-4, true, 10⟩, ⟨6, true, 10⟩] *
          ((losingRowsOf [⟨-4, true, 10⟩, ⟨6, true, 10⟩]).length : ℚ))| := by
  have hl : losingRowsOf [⟨-4, true, 10⟩, ⟨6, true, 10⟩] =
      [⟨-4, true, 10⟩] := by
    norm_num [losingRowsOf, closedRowsOf, List.filter_cons,
      decide_eq_true_eq]
  have hal : avgLoss [⟨-4, true, 10⟩, ⟨6, true, 10⟩] = -4 := by
    rw [avgLoss, hl]
    norm_num
  refine ⟨(claim_C7 5 []).1, (claim_C7 5 []).2.2.1 rfl,
    (claim_C7 5 []).2.2.2.1 (Or.inl rfl), ?_⟩
  exact (claim_C7 5 [⟨-4, true, 10⟩, ⟨6, true, 10⟩]).2.2.2.2
    (by rw [hl]; exact List.cons_ne_nil _ _) (by rw [hal]; norm_num)

end PolymarketAnalytics
